import Mathlib

/-!
Shallow embedding of `pkg/hook/hook.go` from git-sync.

The Go file has three pieces:
* `hookData` — a mutex-protected slot holding the latest hash plus a
  capacity-1 signal channel used as a coalescing wake-up (lines 45-84);
* `HookRunner.Run` — the consumer loop: wait for a notification, fetch the
  latest hash, skip it if equal to `lastHash`, otherwise run the hook,
  retrying with a fixed backoff on failure (lines 114-144), with the
  one-shot completion protocol `sendCompletedOnceMessageIfApplicable`
  (lines 151-157) that writes and closes `hasCompletedOnce` and then calls
  `runtime.Goexit()`;
* `HookRunner.WaitForCompletion` (lines 163-176) and the process-global
  prometheus counter registration (lines 30-35, 116).

The concurrency is modelled as a small-step machine: the runner's control
point is a `Phase`, producers interleave `Ev.send` events with runner steps
`Ev.step`, and each hook execution's outcome is chosen by the environment
(the `Bool` carried by `Ev.step`). Mutex-protected slot accesses are atomic
steps, matching the lock granularity of the source.
-/

namespace GitSync.Hook

/-- Structure `hookData` (hook.go lines 45-49): the slot holding the latest hash under a
mutex, plus the capacity-1 signal channel `ch`, modelled by its occupancy flag
`chFull` (`true` iff a notification is pending in the buffer). -/
structure hookData where
  hash : String
  chFull : Bool
deriving DecidableEq

/-- Constructor `NewHookData` (lines 52-56): fresh slot; the hash is Go's zero value `""`
and the channel buffer is empty. -/
def NewHookData : hookData := { hash := "", chFull := false }

/-- Method `hookData.get` (lines 62-66): read the hash under the mutex. -/
def hookData.get (d : hookData) : String := d.hash

/-- Method `hookData.set` (lines 68-72): overwrite the hash under the mutex. -/
def hookData.set (d : hookData) (newHash : String) : hookData :=
  { d with hash := newHash }

/-- Method `hookData.send` (lines 74-84): set the hash, then perform a non-blocking
write on the capacity-1 channel — if the buffer is already full the
notification is dropped (the `default` branch of the `select`). -/
def hookData.send (d : hookData) (newHash : String) : hookData :=
  let d1 := d.set newHash
  if d1.chFull then d1 else { d1 with chFull := true }

/-- State of the `hasCompletedOnce` channel (`chan bool`, buffered size 1,
lines 101-105): `nil` means the runner was constructed with a nil channel
(async runner); `empty` means the channel exists but nothing was sent yet;
`closedWith b` means `b` was sent and the channel was closed with the buffered
value not yet received; `closedDrained` means closed with the buffer already
received, so any further receive yields the zero value `false`. -/
inductive CompChan
  | nil
  | empty
  | closedWith (b : Bool)
  | closedDrained
deriving DecidableEq

/-- Control point of the goroutine executing `HookRunner.Run`:
`idle` — blocked on `for range r.data.events()` (line 119);
`fetch` — at the top of the inner retry loop, about to `r.data.get()`
(line 125); `exec h` — `r.hook.Do(ctx, h)` in flight (line 130);
`backoff` — sleeping in `time.Sleep(r.backoff)` (line 135);
`exited` — the goroutine was terminated by `runtime.Goexit()` (line 155);
`panicked` — a send or close on an already-closed channel, which panics
in Go (shown unreachable). -/
inductive Phase
  | idle
  | fetch
  | exec (h : String)
  | backoff
  | exited
  | panicked
deriving DecidableEq

/-- One call to `updateHookRunCountMetric` (lines 178-180): an increment of
the `hookRunCount` counter. `ok = true` is the `"success"` label, `ok = false`
the `"error"` label; the hash the hook was executed with is carried for
specification purposes. -/
structure Obs where
  hash : String
  ok : Bool
deriving DecidableEq

/-- The runner's state: the shared `hookData`, the loop-local `lastHash`
(line 115), the control point, and the completion channel. -/
structure RState where
  data : hookData
  lastHash : String
  phase : Phase
  comp : CompChan
deriving DecidableEq

/-- Method `sendCompletedOnceMessageIfApplicable` (lines 151-157). With a nil channel
it does nothing and the goroutine continues at `contPhase`. Otherwise the
success flag is sent, the channel is closed, and `runtime.Goexit()` terminates
the goroutine. A send on an already-closed channel would panic in Go. Returns
the new channel state and the phase the goroutine is left in. -/
def sendCompletedOnceMessageIfApplicable (comp : CompChan)
    (completedSuccessfully : Bool) (contPhase : Phase) : CompChan × Phase :=
  match comp with
  | .nil => (.nil, contPhase)
  | .empty => (.closedWith completedSuccessfully, .exited)
  | .closedWith b => (.closedWith b, .panicked)
  | .closedDrained => (.closedDrained, .panicked)

/-- An interleaving event: either a producer calls `HookRunner.Send(h)`
(line 109-111), or the runner goroutine takes one atomic step; when that step
is the completion of `r.hook.Do`, `res` is its outcome (`true` = nil error). -/
inductive Ev
  | send (h : String)
  | step (res : Bool)
deriving DecidableEq

/-- One atomic step of the system, returning the new state and the metric
observations emitted. The runner cases transcribe `Run`'s body (lines
119-143): from `idle`, consume a pending notification or stay blocked; from
`fetch`, read the latest hash and break to `idle` when it equals `lastHash`
(lines 125-128); from `exec h`, on success increment the success counter, set
`lastHash`, report completion and break (lines 136-141), on failure increment
the error counter, report completion and sleep (lines 130-135); from
`backoff`, return to the top of the retry loop. -/
def runStep (s : RState) (e : Ev) : RState × List Obs :=
  match e with
  | .send h => ({ s with data := s.data.send h }, [])
  | .step res =>
    match s.phase with
    | .idle =>
        if s.data.chFull then
          ({ s with data := { s.data with chFull := false }, phase := .fetch }, [])
        else
          (s, [])
    | .fetch =>
        let h := s.data.get
        if h = s.lastHash then
          ({ s with phase := .idle }, [])
        else
          ({ s with phase := .exec h }, [])
    | .exec h =>
        if res then
          let cp := sendCompletedOnceMessageIfApplicable s.comp true .idle
          ({ s with lastHash := h, comp := cp.1, phase := cp.2 }, [⟨h, true⟩])
        else
          let cp := sendCompletedOnceMessageIfApplicable s.comp false .backoff
          ({ s with comp := cp.1, phase := cp.2 }, [⟨h, false⟩])
    | .backoff => ({ s with phase := .fetch }, [])
    | .exited => (s, [])
    | .panicked => (s, [])

/-- Run the system over a list of interleaved events, collecting the metric
observations in order. -/
def run (s : RState) : List Ev → RState × List Obs
  | [] => (s, [])
  | e :: evs =>
      let p := runStep s e
      let q := run p.1 evs
      (q.1, p.2 ++ q.2)

/-- The state at the top of `Run` (lines 114-119): `lastHash` is Go's zero
value `""` and the goroutine is about to block on the events channel. -/
def initState (d : hookData) (comp : CompChan) : RState :=
  { data := d, lastHash := "", phase := .idle, comp := comp }

/-- Models `prometheus.MustRegister` (line 116) on the process-global
`hookRunCount` collector (lines 30-35): registering a collector that is
already registered panics (`none`); otherwise the registry now holds it. This
is the documented contract of the prometheus client library, which is outside
this repository. -/
def MustRegister (registered : Bool) : Option Bool :=
  if registered then none else some true

/-- Method `HookRunner.Run` including its prologue (lines 114-117): `registered`
says whether `hookRunCount` is already in the process-global registry.
`none` means the call panicked at the registration step, before consuming any
notification or invoking the hook; otherwise the loop runs over `evs`. -/
def RunFromStart (registered : Bool) (d : hookData) (comp : CompChan)
    (evs : List Ev) : Option (RState × List Obs) :=
  match MustRegister registered with
  | none => none
  | some _ => some (run (initState d comp) evs)

/-- Method `HookRunner.WaitForCompletion` (lines 163-176). `none` models blocking
(the channel exists but no message was sent yet); otherwise the result is the
channel state after the receive together with the returned `error`. Receiving
from a nil-channel runner returns an error without blocking (lines 165-167);
receiving the buffered value of a closed channel yields it and drains the
buffer; receiving from a drained closed channel yields the zero value
`false`, hence the "completed with error" error (lines 170-173). -/
def WaitForCompletion (comp : CompChan) :
    Option (CompChan × Except String Unit) :=
  match comp with
  | .nil => some (.nil, .error "HookRunner.WaitForCompletion called on async runner")
  | .empty => none
  | .closedWith b =>
      some (.closedDrained,
        if b then .ok () else .error "exechook completed with error")
  | .closedDrained =>
      some (.closedDrained, .error "exechook completed with error")

/-- Predicate: `evs` contains no `send` of a value other than `v` (steps are allowed). -/
def onlySends (v : String) : List Ev → Bool
  | [] => true
  | Ev.send h :: t => decide (h = v) && onlySends v t
  | Ev.step _ :: t => onlySends v t

/-! ### Invariant lemmas -/

/-- One step preserves "async runner, goroutine alive": with a nil completion
channel no step can reach `exited` or `panicked`. -/
theorem runStep_preserves_async_live (s : RState) (e : Ev)
    (hc : s.comp = CompChan.nil)
    (h1 : s.phase ≠ Phase.exited) (h2 : s.phase ≠ Phase.panicked) :
    (runStep s e).1.comp = CompChan.nil ∧
    (runStep s e).1.phase ≠ Phase.exited ∧
    (runStep s e).1.phase ≠ Phase.panicked := by
  cases e with
  | send h => simpa [runStep] using ⟨hc, h1, h2⟩
  | step res =>
    cases hph : s.phase with
    | idle =>
        by_cases hf : s.data.chFull <;>
          simp [runStep, hph, hf, hc]
    | fetch =>
        by_cases he : s.data.get = s.lastHash <;>
          simp [runStep, hph, he, hc]
    | exec h =>
        cases res <;>
          simp [runStep, hph, hc, sendCompletedOnceMessageIfApplicable]
    | backoff => simp [runStep, hph, hc]
    | exited => exact absurd hph h1
    | panicked => exact absurd hph h2

/-- Over any event sequence an async runner (nil completion channel) stays
alive: the loop never terminates and never panics. -/
theorem run_preserves_async_live (evs : List Ev) (s : RState)
    (hc : s.comp = CompChan.nil)
    (h1 : s.phase ≠ Phase.exited) (h2 : s.phase ≠ Phase.panicked) :
    (run s evs).1.comp = CompChan.nil ∧
    (run s evs).1.phase ≠ Phase.exited ∧
    (run s evs).1.phase ≠ Phase.panicked := by
  induction evs generalizing s with
  | nil => exact ⟨hc, h1, h2⟩
  | cons e evs ih =>
      have hs := runStep_preserves_async_live s e hc h1 h2
      simpa [run] using ih (runStep s e).1 hs.1 hs.2.1 hs.2.2

/-- Once the goroutine has exited, no further step does anything: the phase
and completion channel are frozen and no metric observation is ever emitted
again (producers may still update the shared data). -/
theorem run_exited_frozen (evs : List Ev) (s : RState)
    (hp : s.phase = Phase.exited) :
    (run s evs).1.phase = Phase.exited ∧
    (run s evs).1.comp = s.comp ∧
    (run s evs).2 = [] := by
  induction evs generalizing s with
  | nil => exact ⟨hp, rfl, rfl⟩
  | cons e evs ih =>
      cases e with
      | send h =>
          have := ih { s with data := s.data.send h } hp
          simpa [run, runStep] using this
      | step res =>
          have := ih s hp
          simpa [run, runStep, hp] using this

/-- One step of a sync runner (completion channel allocated, nothing sent
yet): either nothing is observed and the channel is still untouched, or the
step is the first execution outcome, in which case exactly one observation is
emitted, the channel is written with that outcome's status and closed, and
`runtime.Goexit()` has terminated the goroutine. -/
theorem runStep_sync_once (s : RState) (e : Ev)
    (hc : s.comp = CompChan.empty)
    (h1 : s.phase ≠ Phase.exited) (h2 : s.phase ≠ Phase.panicked) :
    ((runStep s e).2 = [] ∧ (runStep s e).1.comp = CompChan.empty ∧
      (runStep s e).1.phase ≠ Phase.exited ∧
      (runStep s e).1.phase ≠ Phase.panicked) ∨
    (∃ o, (runStep s e).2 = [o] ∧
      (runStep s e).1.comp = CompChan.closedWith o.ok ∧
      (runStep s e).1.phase = Phase.exited) := by
  cases e with
  | send h => exact Or.inl (by simpa [runStep] using ⟨hc, h1, h2⟩)
  | step res =>
    cases hph : s.phase with
    | idle =>
        by_cases hf : s.data.chFull <;>
          exact Or.inl (by simp [runStep, hph, hf, hc])
    | fetch =>
        by_cases he : s.data.get = s.lastHash <;>
          exact Or.inl (by simp [runStep, hph, he, hc])
    | exec h =>
        cases res with
        | false =>
            exact Or.inr ⟨⟨h, false⟩,
              by simp [runStep, hph, hc, sendCompletedOnceMessageIfApplicable]⟩
        | true =>
            exact Or.inr ⟨⟨h, true⟩,
              by simp [runStep, hph, hc, sendCompletedOnceMessageIfApplicable]⟩
    | backoff => exact Or.inl (by simp [runStep, hph, hc])
    | exited => exact absurd hph h1
    | panicked => exact absurd hph h2

/-- Over any event sequence, a sync runner observes at most one execution
outcome; the completion channel is still untouched if there was none, and is
closed carrying exactly the first (and only) outcome otherwise. -/
theorem run_sync_once (evs : List Ev) (s : RState)
    (hc : s.comp = CompChan.empty)
    (h1 : s.phase ≠ Phase.exited) (h2 : s.phase ≠ Phase.panicked) :
    ((run s evs).2 = [] ∧ (run s evs).1.comp = CompChan.empty ∧
      (run s evs).1.phase ≠ Phase.exited ∧
      (run s evs).1.phase ≠ Phase.panicked) ∨
    (∃ o, (run s evs).2 = [o] ∧
      (run s evs).1.comp = CompChan.closedWith o.ok ∧
      (run s evs).1.phase = Phase.exited) := by
  induction evs generalizing s with
  | nil => exact Or.inl ⟨rfl, hc, h1, h2⟩
  | cons e evs ih =>
      rcases runStep_sync_once s e hc h1 h2 with
        ⟨ho, hcomp, hl1, hl2⟩ | ⟨o, ho, hcomp, hex⟩
      · rcases ih (runStep s e).1 hcomp hl1 hl2 with
          ⟨ro, rc, r1, r2⟩ | ⟨o, ro, rc, rex⟩
        · exact Or.inl (by simp [run, ho, ro, rc, r1, r2])
        · exact Or.inr ⟨o, by simp [run, ho, ro, rc, rex]⟩
      · have hfz := run_exited_frozen evs (runStep s e).1 hex
        exact Or.inr ⟨o, by
          simp [run, ho, hfz.2.2, hfz.2.1 ▸ hcomp, hfz.1, hcomp ▸ hfz.2.1]⟩

/-- One quiet step: if the stored hash equals `lastHash` and the runner is at
`idle` or `fetch`, a step that is not a `send` of a different value emits no
observation and preserves the quiet configuration. -/
theorem runStep_quiet (s : RState) (e : Ev) (v : String)
    (hl : s.lastHash = v) (hd : s.data.hash = v)
    (hp : s.phase = Phase.idle ∨ s.phase = Phase.fetch)
    (he : ∀ h, e = Ev.send h → h = v) :
    (runStep s e).2 = [] ∧ (runStep s e).1.lastHash = v ∧
    (runStep s e).1.data.hash = v ∧
    ((runStep s e).1.phase = Phase.idle ∨ (runStep s e).1.phase = Phase.fetch) := by
  cases e with
  | send h =>
      have hv : h = v := he h rfl
      refine ⟨rfl, hl, ?_, hp⟩
      by_cases hf : s.data.chFull <;>
        simp [runStep, hookData.send, hookData.set, hf, hv]
  | step res =>
      rcases hp with hp | hp
      · by_cases hf : s.data.chFull
        · refine ⟨?_, ?_, ?_, Or.inr ?_⟩ <;> simp [runStep, hp, hf, hl, hd]
        · refine ⟨?_, ?_, ?_, Or.inl ?_⟩ <;> simp [runStep, hp, hf, hl, hd]
      · have heq : s.data.get = s.lastHash := by
          simp [hookData.get, hd, hl]
        refine ⟨?_, ?_, ?_, Or.inl ?_⟩ <;> simp [runStep, hp, heq, hl, hd]

/-- If the stored hash equals `lastHash`, the runner at `idle` or `fetch`
never invokes the hook while every further `send` re-sends that same value:
no observation is emitted and `lastHash` does not change. -/
theorem run_quiet (evs : List Ev) (s : RState) (v : String)
    (hl : s.lastHash = v) (hd : s.data.hash = v)
    (hp : s.phase = Phase.idle ∨ s.phase = Phase.fetch)
    (ho : onlySends v evs = true) :
    (run s evs).2 = [] ∧ (run s evs).1.lastHash = v := by
  induction evs generalizing s with
  | nil => exact ⟨rfl, hl⟩
  | cons e evs ih =>
      have hsend : (∀ h, e = Ev.send h → h = v) ∧ onlySends v evs = true := by
        cases e with
        | send h =>
            have hh : h = v ∧ onlySends v evs = true := by
              simpa [onlySends, Bool.and_eq_true, decide_eq_true_iff] using ho
            exact ⟨fun h2 hh2 => by cases hh2; exact hh.1, hh.2⟩
        | step r =>
            exact ⟨fun h2 hh2 => by simp at hh2, by simpa [onlySends] using ho⟩
      obtain ⟨ho1, hl1, hd1, hp1⟩ := runStep_quiet s e v hl hd hp hsend.1
      have hr := ih (runStep s e).1 hl1 hd1 hp1 hsend.2
      exact ⟨by simp [run, ho1, hr.1], by simp [run, hr.2]⟩

/-- Helper: whatever the prior channel occupancy, `send` leaves the slot
holding the new hash with exactly one pending notification. -/
theorem hookData.send_eq (d : hookData) (h : String) :
    d.send h = { hash := h, chFull := true } := by
  by_cases hf : d.chFull <;> simp [hookData.send, hookData.set, hf]

/-! ### Claims -/

/-- Claim C7: `Send` stores its argument, overwriting any unconsumed prior
value, then attempts a non-blocking notification on the capacity-1 signal
channel, dropping the notification when the channel is already full; it is a
total function (never blocks, never fails), and afterwards `Get` returns the
sent value until a later `Send` overwrites it — only the latest value
survives, as the full characterisation `d.send h = ⟨h, true⟩` shows. -/
theorem send_stores_and_notifies (d : hookData) (h h2 : String) :
    (d.send h).get = h ∧
    (d.send h).chFull = true ∧
    ((d.send h).send h2).get = h2 ∧
    d.send h = { hash := h, chFull := true } := by
  refine ⟨?_, ?_, ?_, hookData.send_eq d h⟩ <;>
    simp [hookData.send_eq, hookData.get]

/-- Claim C5: `WaitForCompletion` with a configured receiver blocks until the
single first-outcome message arrives (`none` while nothing was sent) and then
returns success exactly when the message is `true` and the descriptive
"exechook completed with error" error when it is `false`; with no configured
receiver it returns the descriptive "called on async runner" error
immediately, without blocking. -/
theorem waitForCompletion_contract :
    WaitForCompletion CompChan.nil =
      some (CompChan.nil,
        Except.error "HookRunner.WaitForCompletion called on async runner") ∧
    WaitForCompletion CompChan.empty = none ∧
    WaitForCompletion (CompChan.closedWith true) =
      some (CompChan.closedDrained, Except.ok ()) ∧
    WaitForCompletion (CompChan.closedWith false) =
      some (CompChan.closedDrained,
        Except.error "exechook completed with error") :=
  ⟨rfl, rfl, rfl, rfl⟩

/-- Claim C9: after the completion message has been consumed and the channel
closed, a receive yields the zero value `false`, so every later call to
`WaitForCompletion` returns the "exechook completed with error" failure
immediately — even when the first execution actually succeeded (first
conjunct: the successful first call drains the channel; second conjunct: the
drained channel then always reports the error). -/
theorem wait_after_drain_always_errors :
    WaitForCompletion (CompChan.closedWith true) =
      some (CompChan.closedDrained, Except.ok ()) ∧
    WaitForCompletion CompChan.closedDrained =
      some (CompChan.closedDrained,
        Except.error "exechook completed with error") :=
  ⟨rfl, rfl⟩

/-- Claim C10: `Run` registers the process-global `hookRunCount` collector on
every invocation, so a second invocation in the same process (registry
already holding the collector) panics at the registration step, producing no
state and no observation — before consuming any notification or invoking the
hook; a first invocation proceeds into the loop. -/
theorem second_run_panics_at_registration (d : hookData) (comp : CompChan)
    (evs : List Ev) :
    RunFromStart true d comp evs = none ∧
    RunFromStart false d comp evs = some (run (initState d comp) evs) :=
  ⟨rfl, rfl⟩

/-- Claim C2: for a runner constructed with a non-nil completion channel,
over every event interleaving the channel is written to and closed exactly
once, on the first execution outcome observed after start, carrying that
outcome's status — and is never written to or closed again (at most one
outcome is ever observed, the channel ends exactly in `closedWith` of the
first outcome, and the write-on-closed panic never occurs). -/
theorem completion_channel_written_once (d : hookData) (evs : List Ev) :
    ((run (initState d CompChan.empty) evs).2 = [] ∧
      (run (initState d CompChan.empty) evs).1.comp = CompChan.empty) ∨
    (∃ o, (run (initState d CompChan.empty) evs).2 = [o] ∧
      (run (initState d CompChan.empty) evs).1.comp = CompChan.closedWith o.ok ∧
      (run (initState d CompChan.empty) evs).1.phase = Phase.exited) := by
  rcases run_sync_once evs (initState d CompChan.empty) rfl
      (by simp [initState]) (by simp [initState]) with h | h
  · exact Or.inl ⟨h.1, h.2.1⟩
  · exact Or.inr h

/-- Claim C6: when the fetched value equals `lastHash`, the runner skips
invoking the hook for it entirely (no observation) and returns to `idle`;
and as long as only that same value is re-sent, zero further executions
occur. -/
theorem equal_hash_skips_execution (s : RState) (evs : List Ev) (res : Bool)
    (hp : s.phase = Phase.fetch) (he : s.data.hash = s.lastHash)
    (ho : onlySends s.lastHash evs = true) :
    (runStep s (Ev.step res)).1.phase = Phase.idle ∧
    (runStep s (Ev.step res)).2 = [] ∧
    (run s (Ev.step res :: evs)).2 = [] := by
  refine ⟨?_, ?_, ?_⟩
  · simp [runStep, hp, hookData.get, he]
  · simp [runStep, hp, hookData.get, he]
  · exact (run_quiet (Ev.step res :: evs) s s.lastHash rfl he (Or.inr hp)
      (by simpa [onlySends] using ho)).1

/-- Witness for C6 at a concrete state: fetched value "a" equals
`lastHash = "a"`, a re-send of "a" follows, and no execution is observed. -/
theorem equal_hash_skips_execution_witness :
    (runStep { data := { hash := "a", chFull := false },
               lastHash := "a",
               phase := Phase.fetch,
               comp := CompChan.nil } (Ev.step true)).1.phase = Phase.idle ∧
    (run { data := { hash := "a", chFull := false },
           lastHash := "a",
           phase := Phase.fetch,
           comp := CompChan.nil }
      (Ev.step true :: [Ev.send "a", Ev.step true, Ev.step true])).2 = [] :=
  have h := equal_hash_skips_execution
    { data := { hash := "a", chFull := false },
      lastHash := "a",
      phase := Phase.fetch,
      comp := CompChan.nil }
    [Ev.send "a", Ev.step true, Ev.step true] true rfl rfl (by decide)
  ⟨h.1, h.2.2⟩

/-- Claim C8: `lastHash` starts as the Go zero value `""`, and a fresh
`hookData` also holds `""`; hence if only the empty string is ever sent, the
runner never invokes the hook (no observation) and `lastProcessed` stays
`""` — an empty-string request is indistinguishable from "nothing processed
yet". -/
theorem empty_hash_treated_as_processed (comp : CompChan) (evs : List Ev)
    (ho : onlySends "" evs = true) :
    (run (initState NewHookData comp) evs).2 = [] ∧
    (run (initState NewHookData comp) evs).1.lastHash = "" :=
  run_quiet evs (initState NewHookData comp) "" rfl rfl (Or.inl rfl) ho

/-- Witness for C8: sending `""` once and letting the runner step twice
produces no execution even for a sync runner. -/
theorem empty_hash_treated_as_processed_witness :
    (run (initState NewHookData CompChan.empty)
      [Ev.send "", Ev.step true, Ev.step true]).2 = [] :=
  (empty_hash_treated_as_processed CompChan.empty
    [Ev.send "", Ev.step true, Ev.step true] (by decide)).1

/-- Counterexample to claim C1 as stated: for a runner constructed with a
completion receiver, the first failing execution terminates the `Run`
goroutine via `runtime.Goexit()`. Concretely: "a" is sent and its execution
fails, then "b" is sent and the runner is given three more steps — yet the
trace holds only the single failure observation (no retry, neither of "a" nor
of the newer "b") and the goroutine has exited. -/
theorem sync_failure_terminates_loop_counterexample :
    (run (initState NewHookData CompChan.empty)
      [Ev.send "a", Ev.step true, Ev.step true, Ev.step false,
       Ev.send "b", Ev.step true, Ev.step true, Ev.step true]).2 =
      [{ hash := "a", ok := false }] ∧
    (run (initState NewHookData CompChan.empty)
      [Ev.send "a", Ev.step true, Ev.step true, Ev.step false,
       Ev.send "b", Ev.step true, Ev.step true, Ev.step true]).1.phase =
      Phase.exited :=
  ⟨rfl, rfl⟩

/-- Amended claim C1: for every runner constructed WITHOUT a completion
receiver (`hasCompletedOnce = nil`), a failing execution never terminates the
`Run` loop — no event sequence reaches `exited` (or `panicked`), a failure
emits exactly the error observation and moves to the backoff sleep, and after
sleeping the runner re-fetches and retries the still-current value. (With a
completion receiver, the first outcome instead terminates the goroutine.) -/
theorem async_failure_never_terminates (d : hookData) (evs : List Ev)
    (s : RState) (h : String)
    (hc : s.comp = CompChan.nil) (hp : s.phase = Phase.exec h)
    (hd : s.data.hash = h) (hne : h ≠ s.lastHash) :
    (run (initState d CompChan.nil) evs).1.phase ≠ Phase.exited ∧
    (run (initState d CompChan.nil) evs).1.phase ≠ Phase.panicked ∧
    (runStep s (Ev.step false)).2 = [{ hash := h, ok := false }] ∧
    (runStep s (Ev.step false)).1.phase = Phase.backoff ∧
    (run s [Ev.step false, Ev.step true, Ev.step true]).1.phase = Phase.exec h := by
  have hl := run_preserves_async_live evs (initState d CompChan.nil) rfl
    (by simp [initState]) (by simp [initState])
  refine ⟨hl.2.1, hl.2.2, ?_, ?_, ?_⟩
  · simp [runStep, hp, hc, sendCompletedOnceMessageIfApplicable]
  · simp [runStep, hp, hc, sendCompletedOnceMessageIfApplicable]
  · simp [run, runStep, hp, hc, sendCompletedOnceMessageIfApplicable,
      hookData.get, hd, hne]

/-- Witness for the amended C1 at concrete inputs: the async runner is still
alive after a failing run of "a", and retries "a" after the backoff. -/
theorem async_failure_never_terminates_witness :
    (run (initState NewHookData CompChan.nil)
      [Ev.send "a", Ev.step true, Ev.step true, Ev.step false]).1.phase ≠
      Phase.exited ∧
    (run { data := { hash := "a", chFull := false },
           lastHash := "",
           phase := Phase.exec "a",
           comp := CompChan.nil }
      [Ev.step false, Ev.step true, Ev.step true]).1.phase =
      Phase.exec "a" :=
  have h := async_failure_never_terminates NewHookData
    [Ev.send "a", Ev.step true, Ev.step true, Ev.step false]
    { data := { hash := "a", chFull := false },
      lastHash := "",
      phase := Phase.exec "a",
      comp := CompChan.nil }
    "a" rfl rfl rfl (by decide)
  ⟨h.1, h.2.2.2.2⟩

/-- Counterexample to claim C3 as stated: for a runner with a completion
receiver, a successful execution does record `lastHash` and emit the success
observation, but the goroutine then exits instead of returning to `idle` —
the subsequent `Send "b"` and three steps produce no further execution. -/
theorem sync_success_terminates_loop_counterexample :
    (run (initState NewHookData CompChan.empty)
      [Ev.send "a", Ev.step true, Ev.step true, Ev.step true,
       Ev.send "b", Ev.step true, Ev.step true, Ev.step true]).2 =
      [{ hash := "a", ok := true }] ∧
    (run (initState NewHookData CompChan.empty)
      [Ev.send "a", Ev.step true, Ev.step true, Ev.step true,
       Ev.send "b", Ev.step true, Ev.step true, Ev.step true]).1.lastHash =
      "a" ∧
    (run (initState NewHookData CompChan.empty)
      [Ev.send "a", Ev.step true, Ev.step true, Ev.step true,
       Ev.send "b", Ev.step true, Ev.step true, Ev.step true]).1.phase =
      Phase.exited :=
  ⟨rfl, rfl, rfl⟩

/-- Amended claim C3: on a successful execution the runner always records the
executed value as `lastHash` and emits a success observation; a runner
without a completion receiver then returns to `idle` and keeps consuming
notifications (a pending notification leads it back to `fetch`), while a
runner with a completion receiver terminates its goroutine instead. -/
theorem success_records_and_returns_to_idle (s t : RState) (h : String)
    (hc : s.comp = CompChan.nil) (hp : s.phase = Phase.exec h)
    (tc : t.comp = CompChan.empty) (tp : t.phase = Phase.exec h) :
    (runStep s (Ev.step true)).1.lastHash = h ∧
    (runStep s (Ev.step true)).2 = [{ hash := h, ok := true }] ∧
    (runStep s (Ev.step true)).1.phase = Phase.idle ∧
    (s.data.chFull = true →
      (runStep (runStep s (Ev.step true)).1 (Ev.step true)).1.phase =
        Phase.fetch) ∧
    (runStep t (Ev.step true)).1.lastHash = h ∧
    (runStep t (Ev.step true)).2 = [{ hash := h, ok := true }] ∧
    (runStep t (Ev.step true)).1.phase = Phase.exited := by
  refine ⟨?_, ?_, ?_, ?_, ?_, ?_, ?_⟩
  · simp [runStep, hp, hc, sendCompletedOnceMessageIfApplicable]
  · simp [runStep, hp, hc, sendCompletedOnceMessageIfApplicable]
  · simp [runStep, hp, hc, sendCompletedOnceMessageIfApplicable]
  · intro hf
    simp [runStep, hp, hc, sendCompletedOnceMessageIfApplicable, hf]
  · simp [runStep, tp, tc, sendCompletedOnceMessageIfApplicable]
  · simp [runStep, tp, tc, sendCompletedOnceMessageIfApplicable]
  · simp [runStep, tp, tc, sendCompletedOnceMessageIfApplicable]

/-- Witness for the amended C3 at concrete states with a pending
notification. -/
theorem success_records_and_returns_to_idle_witness :
    (runStep { data := { hash := "a", chFull := true },
               lastHash := "",
               phase := Phase.exec "a",
               comp := CompChan.nil } (Ev.step true)).1.phase = Phase.idle ∧
    (runStep { data := { hash := "a", chFull := true },
               lastHash := "",
               phase := Phase.exec "a",
               comp := CompChan.empty } (Ev.step true)).1.phase =
      Phase.exited :=
  have h := success_records_and_returns_to_idle
    { data := { hash := "a", chFull := true },
      lastHash := "",
      phase := Phase.exec "a",
      comp := CompChan.nil }
    { data := { hash := "a", chFull := true },
      lastHash := "",
      phase := Phase.exec "a",
      comp := CompChan.empty }
    "a" rfl rfl rfl rfl
  ⟨h.2.2.1, h.2.2.2.2.2.2⟩

/-- Counterexample to claim C4 as stated: when a completion receiver is
configured and not yet satisfied, a failing execution reports the failure but
then the goroutine exits — there is no backoff sleep and no re-fetch/retry:
the fresh value "b" sent afterwards is never executed. -/
theorem sync_failure_no_backoff_counterexample :
    (runStep { data := { hash := "a", chFull := false },
               lastHash := "",
               phase := Phase.exec "a",
               comp := CompChan.empty } (Ev.step false)).1.phase =
      Phase.exited ∧
    (run { data := { hash := "a", chFull := false },
           lastHash := "",
           phase := Phase.exec "a",
           comp := CompChan.empty }
      [Ev.step false, Ev.send "b", Ev.step true, Ev.step true,
       Ev.step true]).2 = [{ hash := "a", ok := false }] :=
  ⟨rfl, rfl⟩

/-- Amended claim C4: on a failing execution the runner emits the error
observation and, when no completion receiver is configured, keeps `lastHash`
unchanged, sleeps (`backoff` phase) and then re-fetches the latest stored
value before retrying — so a value sent during the sleep is the one executed
next; when a completion receiver is configured, it reports `false`, closes
the channel and terminates the goroutine instead of sleeping or retrying. -/
theorem failure_backoff_then_refetch_latest (s t : RState) (h h2 : String)
    (hc : s.comp = CompChan.nil) (hp : s.phase = Phase.exec h)
    (hne : h2 ≠ s.lastHash)
    (tc : t.comp = CompChan.empty) (tp : t.phase = Phase.exec h) :
    (runStep s (Ev.step false)).2 = [{ hash := h, ok := false }] ∧
    (runStep s (Ev.step false)).1.phase = Phase.backoff ∧
    (runStep s (Ev.step false)).1.lastHash = s.lastHash ∧
    (run s [Ev.step false, Ev.send h2, Ev.step true, Ev.step true]).1.phase =
      Phase.exec h2 ∧
    (runStep t (Ev.step false)).2 = [{ hash := h, ok := false }] ∧
    (runStep t (Ev.step false)).1.comp = CompChan.closedWith false ∧
    (runStep t (Ev.step false)).1.phase = Phase.exited := by
  refine ⟨?_, ?_, ?_, ?_, ?_, ?_, ?_⟩
  · simp [runStep, hp, hc, sendCompletedOnceMessageIfApplicable]
  · simp [runStep, hp, hc, sendCompletedOnceMessageIfApplicable]
  · simp [runStep, hp, hc, sendCompletedOnceMessageIfApplicable]
  · simp [run, runStep, hp, hc, sendCompletedOnceMessageIfApplicable,
      hookData.get, hookData.send_eq, hne]
  · simp [runStep, tp, tc, sendCompletedOnceMessageIfApplicable]
  · simp [runStep, tp, tc, sendCompletedOnceMessageIfApplicable]
  · simp [runStep, tp, tc, sendCompletedOnceMessageIfApplicable]

/-- Witness for the amended C4: a failing run of "a" backs off, "b" arrives
during the sleep, and the retry executes "b". -/
theorem failure_backoff_then_refetch_latest_witness :
    (run { data := { hash := "a", chFull := false },
           lastHash := "",
           phase := Phase.exec "a",
           comp := CompChan.nil }
      [Ev.step false, Ev.send "b", Ev.step true, Ev.step true]).1.phase =
      Phase.exec "b" ∧
    (runStep { data := { hash := "a", chFull := false },
               lastHash := "",
               phase := Phase.exec "a",
               comp := CompChan.empty } (Ev.step false)).1.phase =
      Phase.exited :=
  have h := failure_backoff_then_refetch_latest
    { data := { hash := "a", chFull := false },
      lastHash := "",
      phase := Phase.exec "a",
      comp := CompChan.nil }
    { data := { hash := "a", chFull := false },
      lastHash := "",
      phase := Phase.exec "a",
      comp := CompChan.empty }
    "a" "b" rfl rfl (by decide) rfl rfl
  ⟨h.2.2.2.1, h.2.2.2.2.2.2⟩

end GitSync.Hook
